import Mathlib

/-!
# Verification of the Auto-GPT vector-memory subsystem

Shallow embedding of `src/autogpt/memory/vector/__init__.py` (the backend
selection factory `get_memory`, the `supported_memory` list and
`get_supported_memory_backends`), together with a model of the two memory
providers (`JSONFileMemory`, `NoMemory`) whose implementation files are not
part of the sources; the provider operations are modelled from the spec.

Python exceptions become an explicit error type: `NotImplementedError`
raised for a retired backend is embedded as `MemError.backendRetired`, and
`ValueError` raised for an unknown backend as `MemError.unknownBackend`,
each carrying the message string built at the raise site.
-/

namespace AutoGPT

/-- Tags for the concrete provider classes the factory can instantiate:
`JSONFileMemory(config)` and `NoMemory()`. -/
inductive Provider where
  | jsonFile
  | noMemory
deriving DecidableEq, Repr

/-- Errors of the memory subsystem.  `backendRetired` and `unknownBackend`
embed the `NotImplementedError` / `ValueError` raised by `get_memory`;
`dimensionMismatch`, `notFound` and `storageCorrupt` are the per-call error
taxonomy of the providers. -/
inductive MemError where
  | backendRetired (msg : String)
  | unknownBackend (msg : String)
  | dimensionMismatch
  | notFound
  | storageCorrupt
deriving DecidableEq, Repr

/-- Module-level list `supported_memory = ["json_file", "no_memory"]`
(the commented-out import blocks that would append further names are dead
code, so the list is this constant). -/
def supported_memory : List String := ["json_file", "no_memory"]

/-- `def get_supported_memory_backends(): return supported_memory` -/
def get_supported_memory_backends : List String := supported_memory

/-- Message of the `NotImplementedError` raised for `"pinecone"`. -/
def pineconeRetiredMessage : String :=
  "The Pinecone memory backend has been rendered incompatible by work on " ++
  "the memory system, and was removed. Whether support will be added back " ++
  "in the future is subject to discussion, feel free to pitch in: " ++
  "https://github.com/Significant-Gravitas/Auto-GPT/discussions/4280"

/-- Message of the `NotImplementedError` raised for `"redis"`. -/
def redisRetiredMessage : String :=
  "The Redis memory backend has been rendered incompatible by work on " ++
  "the memory system, and has been removed temporarily."

/-- Message of the `NotImplementedError` raised for `"weaviate"`. -/
def weaviateRetiredMessage : String :=
  "The Weaviate memory backend has been rendered incompatible by work on " ++
  "the memory system, and was removed. Whether support will be added back " ++
  "in the future is subject to discussion, feel free to pitch in: " ++
  "https://github.com/Significant-Gravitas/Auto-GPT/discussions/4280"

/-- Message of the `ValueError` raised for an unrecognized backend:
`f"Unknown memory backend '{config.memory_backend}'. Please check your config."` -/
def unknownBackendMessage (memory_backend : String) : String :=
  "Unknown memory backend \x27" ++ memory_backend ++ "\x27. Please check your config."

/-- The `if`/`elif` chain of `get_memory` (lines 46-97): starting from
`memory = None`, each branch either assigns `memory` a freshly constructed
provider or raises.  Returns the value of the local variable `memory`
after the chain, or the raised error. -/
def resolveBackend (memory_backend : String) : Except MemError (Option Provider) :=
  if memory_backend = "json_file" ∨ memory_backend = "local" then
    .ok (some Provider.jsonFile)
  else if memory_backend = "pinecone" then
    .error (.backendRetired pineconeRetiredMessage)
  else if memory_backend = "redis" then
    .error (.backendRetired redisRetiredMessage)
  else if memory_backend = "weaviate" then
    .error (.backendRetired weaviateRetiredMessage)
  else if memory_backend = "no_memory" then
    .ok (some Provider.noMemory)
  else
    .error (.unknownBackend (unknownBackendMessage memory_backend))

/-- The defensive default after the chain (lines 98-99):
`if memory is None: memory = JSONFileMemory(config)`.  The second component
is the log of providers constructed by this step. -/
def defaultIfNone : Option Provider → Except MemError Provider × List Provider
  | none => (.ok Provider.jsonFile, [Provider.jsonFile])
  | some m => (.ok m, [])

/-- `get_memory(config)` as a function of `config.memory_backend`.  The
second component is the ordered log of provider instances constructed
during the call (each active branch constructs exactly the instance it
assigns; a raising branch constructs nothing; `JSONFileMemory` construction
is the only step of the module that touches the filesystem). -/
def get_memory (memory_backend : String) : Except MemError Provider × List Provider :=
  match resolveBackend memory_backend with
  | .error e => (.error e, [])
  | .ok mem =>
      let (res, constructed) := defaultIfNone mem
      (res, mem.toList.append constructed)

/-- Modelled from the spec: `MemoryItem` (§3), the immutable record of one
stored memory, whose implementation file `memory_item.py` is not among the
sources.  Embedding coordinates are exact rationals standing in for the
numeric (floating-point) vector entries. -/
structure MemoryItem where
  rawContent : String
  chunks : List String
  chunkEmbeddings : List (List ℚ)
  summary : Option String
  summaryEmbedding : Option (List ℚ)
  metadata : List (String × String)
deriving DecidableEq, Repr

/-- Modelled from the spec: `MemoryItemRelevance` (§3), derived per query,
never persisted. -/
structure MemoryItemRelevance where
  item : MemoryItem
  chunkScores : List ℚ
  summaryScore : Option ℚ
  bestScore : ℚ
deriving DecidableEq, Repr

/-- Every embedding of the item (each chunk embedding, and the summary
embedding when present) has length `D`. -/
def itemDimOk (D : ℕ) (it : MemoryItem) : Prop :=
  (∀ e ∈ it.chunkEmbeddings, e.length = D) ∧
    (∀ e ∈ it.summaryEmbedding, e.length = D)

instance (D : ℕ) (it : MemoryItem) : Decidable (itemDimOk D it) := by
  unfold itemDimOk; infer_instance

/-- Maximum of the chunk scores and (when present) the summary score;
`0` on the empty collection (excluded by the data-model invariant). -/
def bestOf (chunkScores : List ℚ) (summaryScore : Option ℚ) : ℚ :=
  match chunkScores ++ summaryScore.toList with
  | [] => 0
  | x :: xs => xs.foldl max x

/-- Modelled from the spec: score one `MemoryItem` against a query
embedding with the relevance scorer `score` (§3, §4.2), producing its
`MemoryItemRelevance` with `bestScore` the maximum over chunk scores and
summary score. -/
def scoreMemoryItem (score : List ℚ → List ℚ → ℚ) (q : List ℚ)
    (it : MemoryItem) : MemoryItemRelevance :=
  let cs := it.chunkEmbeddings.map (score q)
  let ss := it.summaryEmbedding.map (score q)
  { item := it, chunkScores := cs, summaryScore := ss, bestScore := bestOf cs ss }

/-- Ranking order on `(insertion index, relevance)` pairs: strictly
greater `bestScore` first; on equal `bestScore`, the earlier-added item
(smaller insertion index) first. -/
def rankLE (a b : ℕ × MemoryItemRelevance) : Prop :=
  b.2.bestScore < a.2.bestScore ∨
    (a.2.bestScore = b.2.bestScore ∧ a.1 ≤ b.1)

instance (a b : ℕ × MemoryItemRelevance) : Decidable (rankLE a b) := by
  unfold rankLE; infer_instance

/-- Insert into a list sorted by `rankLE`, keeping it sorted. -/
def insertRanked (x : ℕ × MemoryItemRelevance) :
    List (ℕ × MemoryItemRelevance) → List (ℕ × MemoryItemRelevance)
  | [] => [x]
  | y :: ys => if rankLE x y then x :: y :: ys else y :: insertRanked x ys

/-- Insertion sort by `rankLE`: descending `bestScore`, ties broken by
insertion order. -/
def rankSort : List (ℕ × MemoryItemRelevance) → List (ℕ × MemoryItemRelevance)
  | [] => []
  | x :: xs => insertRanked x (rankSort xs)

/-- Modelled from the spec: `NullMemoryStore` / `NoMemory` (§4.4), the
provider that discards everything.  Its only state is the fixed embedding
dimensionality `D` of the provider instance (§3). -/
structure NoMemory where
  D : ℕ
deriving DecidableEq, Repr

/-- Modelled from the spec: `NoMemory.add` returns the unchanged store and
a synthetic handle, storing nothing; per the interface contract (§4.1) an
item with an embedding of the wrong dimensionality fails with
`DimensionMismatch`. -/
def NoMemory.add (m : NoMemory) (it : MemoryItem) :
    NoMemory × Except MemError ℕ :=
  if itemDimOk m.D it then (m, .ok 0) else (m, .error .dimensionMismatch)

/-- Modelled from the spec: `NoMemory.get` always fails with `NotFound`. -/
def NoMemory.get (_m : NoMemory) (_i : ℕ) : Except MemError MemoryItem :=
  .error .notFound

/-- Modelled from the spec: `NoMemory.getRelevant` returns an empty
sequence; a query embedding of the wrong length fails with
`DimensionMismatch` (§4.1). -/
def NoMemory.getRelevant (m : NoMemory) (q : List ℚ) (_k : ℤ) :
    Except MemError (List (ℕ × MemoryItemRelevance)) :=
  if q.length ≠ m.D then .error .dimensionMismatch else .ok []

/-- Modelled from the spec: `NoMemory.count` always returns 0. -/
def NoMemory.count (_m : NoMemory) : ℕ := 0

/-- Modelled from the spec: `NoMemory.clear` is a no-op. -/
def NoMemory.clear (m : NoMemory) : NoMemory := m

/-- Structured values of the persisted file format (§6): a JSON-like tree
with exact rational numbers standing in for the numeric entries. -/
inductive JValue where
  | str (s : String)
  | num (q : ℚ)
  | arr (xs : List JValue)
  | obj (fields : List (String × JValue))
  | null
deriving Repr

/-- Encode an embedding vector. -/
def encVec (v : List ℚ) : JValue := .arr (v.map .num)

/-- Decode a list of numbers. -/
def decNums : List JValue → Option (List ℚ)
  | [] => some []
  | .num q :: rest => (decNums rest).map (q :: ·)
  | _ => none

/-- Decode an embedding vector. -/
def decVec : JValue → Option (List ℚ)
  | .arr xs => decNums xs
  | _ => none

/-- Decode a list of strings. -/
def decStrs : List JValue → Option (List String)
  | [] => some []
  | .str s :: rest => (decStrs rest).map (s :: ·)
  | _ => none

/-- Decode a list of embedding vectors. -/
def decVecs : List JValue → Option (List (List ℚ))
  | [] => some []
  | v :: rest => do
      let e ← decVec v
      let es ← decVecs rest
      pure (e :: es)

/-- Encode an optional string. -/
def encOptStr : Option String → JValue
  | none => .null
  | some s => .str s

/-- Decode an optional string. -/
def decOptStr : JValue → Option (Option String)
  | .null => some none
  | .str s => some (some s)
  | _ => none

/-- Encode an optional embedding vector. -/
def encOptVec : Option (List ℚ) → JValue
  | none => .null
  | some v => encVec v

/-- Decode an optional embedding vector. -/
def decOptVec : JValue → Option (Option (List ℚ))
  | .null => some none
  | .arr xs => (decNums xs).map some
  | _ => none

/-- Decode metadata fields (string values). -/
def decMeta : List (String × JValue) → Option (List (String × String))
  | [] => some []
  | (k, .str v) :: rest => (decMeta rest).map ((k, v) :: ·)
  | _ => none

/-- Modelled from the spec: serialization of one `MemoryItem` record of
the persisted file format (§6); the exact on-disk encoding is an
implementation choice, so records are modelled as structured values. -/
def serializeMemoryItem (it : MemoryItem) : JValue :=
  .obj [("raw_content", .str it.rawContent),
        ("chunks", .arr (it.chunks.map .str)),
        ("chunk_embeddings", .arr (it.chunkEmbeddings.map encVec)),
        ("summary", encOptStr it.summary),
        ("summary_embedding", encOptVec it.summaryEmbedding),
        ("metadata", .obj (it.metadata.map fun p => (p.1, .str p.2)))]

/-- Modelled from the spec: deserialization of one `MemoryItem` record. -/
def deserializeMemoryItem : JValue → Option MemoryItem
  | .obj [("raw_content", .str r),
          ("chunks", .arr cs),
          ("chunk_embeddings", .arr es),
          ("summary", s),
          ("summary_embedding", se),
          ("metadata", .obj md)] => do
      let chunks ← decStrs cs
      let chunkEmbeddings ← decVecs es
      let summary ← decOptStr s
      let summaryEmbedding ← decOptVec se
      let metadata ← decMeta md
      pure { rawContent := r, chunks, chunkEmbeddings, summary,
             summaryEmbedding, metadata }
  | _ => none

/-- Serialize the whole ordered sequence of items (the file content). -/
def serializeItems (items : List MemoryItem) : JValue :=
  .arr (items.map serializeMemoryItem)

/-- Decode a list of item records. -/
def decItems : List JValue → Option (List MemoryItem)
  | [] => some []
  | v :: rest => do
      let it ← deserializeMemoryItem v
      let its ← decItems rest
      pure (it :: its)

/-- Deserialize a whole file content. -/
def deserializeItems : JValue → Option (List MemoryItem)
  | .arr xs => decItems xs
  | _ => none

/-- Modelled from the spec: `FileBackedMemoryStore` / `JSONFileMemory`
(§4.3), whose implementation file `providers/json_file.py` is not among
the sources.  `D` is the fixed embedding dimensionality of the instance,
`items` the in-memory ordered sequence, and `file` the current content of
the backing file (rewritten on every mutation before the call returns). -/
structure JSONFileMemory where
  D : ℕ
  items : List MemoryItem
  file : JValue

/-- A freshly constructed store over a nonexistent backing file. -/
def emptyStore (D : ℕ) : JSONFileMemory :=
  { D := D, items := [], file := serializeItems [] }

/-- Modelled from the spec: construction over an existing backing file
(§4.3): deserialize it fully, validate every item's embedding
dimensionality against `D`; a parse failure or a dimensionality mismatch
is a fatal initialization error. -/
def openStore (D : ℕ) (file : JValue) : Except MemError JSONFileMemory :=
  match deserializeItems file with
  | none => .error .storageCorrupt
  | some items =>
      if ∀ it ∈ items, itemDimOk D it then
        .ok { D := D, items := items, file := file }
      else
        .error .dimensionMismatch

/-- Modelled from the spec: `add` (§4.1, §4.3): on a dimensionality
mismatch fail and leave the store unchanged; otherwise append to the
in-memory sequence, rewrite the whole file, and return the positional
handle of the new item. -/
def JSONFileMemory.add (st : JSONFileMemory) (it : MemoryItem) :
    JSONFileMemory × Except MemError ℕ :=
  if itemDimOk st.D it then
    let items := st.items ++ [it]
    ({ D := st.D, items := items, file := serializeItems items },
      .ok st.items.length)
  else
    (st, .error .dimensionMismatch)

/-- Modelled from the spec: `get` (§4.1): fails with `NotFound` when the
index does not resolve to a live item. -/
def JSONFileMemory.get (st : JSONFileMemory) (i : ℕ) :
    Except MemError MemoryItem :=
  match st.items[i]? with
  | some it => .ok it
  | none => .error .notFound

/-- Modelled from the spec: `count` (§4.1): number of live items. -/
def JSONFileMemory.count (st : JSONFileMemory) : ℕ := st.items.length

/-- Modelled from the spec: `clear` (§4.1, §4.3): empty the in-memory
sequence and rewrite the file with an empty serialized sequence. -/
def JSONFileMemory.clear (st : JSONFileMemory) : JSONFileMemory :=
  { D := st.D, items := [], file := serializeItems [] }

/-- Modelled from the spec: `getRelevant` (§4.1): a query embedding whose
length differs from `D` fails with `DimensionMismatch`; otherwise score
every stored item (keeping its insertion index), rank by descending
`bestScore` with ties broken by insertion order, and return at most `k`
of them (`k ≤ 0` gives the empty sequence).  The scorer is a parameter
(§4.2 specifies cosine similarity; the ranking structure is independent
of it). -/
def JSONFileMemory.getRelevant (st : JSONFileMemory)
    (score : List ℚ → List ℚ → ℚ) (q : List ℚ) (k : ℤ) :
    Except MemError (List (ℕ × MemoryItemRelevance)) :=
  if q.length ≠ st.D then .error .dimensionMismatch
  else
    .ok ((rankSort ((st.items.map (scoreMemoryItem score q)).enum)).take k.toNat)

/-- Run a sequence of `add`s (the acknowledged result states: a failed
`add` leaves the store unchanged). -/
def addAll (st : JSONFileMemory) : List MemoryItem → JSONFileMemory
  | [] => st
  | it :: rest => addAll (st.add it).1 rest

/-- One caller-visible operation of the `MemoryProvider` interface. -/
inductive MemOp where
  | addOp (it : MemoryItem)
  | clearOp
  | getOp (i : ℕ)
  | getRelevantOp (q : List ℚ) (k : ℤ)

/-- Effect of one operation on the state of the null provider. -/
def NoMemory.applyOp (m : NoMemory) : MemOp → NoMemory
  | .addOp it => (m.add it).1
  | .clearOp => m.clear
  | .getOp _ => m
  | .getRelevantOp _ _ => m

/-- Run a sequence of operations against the null provider. -/
def NoMemory.run (m : NoMemory) : List MemOp → NoMemory
  | [] => m
  | op :: rest => (m.applyOp op).run rest

/-- A concrete computable scorer (dot product) used to instantiate the
scorer parameter on concrete inputs. -/
def dotQ (a b : List ℚ) : ℚ := (List.zipWith (fun x y => x * y) a b).sum

/-- Concrete valid item for a provider with `D = 3`. -/
def item1 : MemoryItem :=
  { rawContent := "alpha", chunks := ["alpha"],
    chunkEmbeddings := [[1, 0, 0]],
    summary := some "a", summaryEmbedding := some [0, 1, 0],
    metadata := [("source", "test")] }

/-- Second concrete valid item for a provider with `D = 3`. -/
def item2 : MemoryItem :=
  { rawContent := "beta", chunks := ["beta"],
    chunkEmbeddings := [[0, 1, 0]],
    summary := none, summaryEmbedding := none, metadata := [] }

/-- Concrete item with an embedding of length 2, invalid for `D = 3`. -/
def badItem : MemoryItem :=
  { rawContent := "bad", chunks := ["bad"],
    chunkEmbeddings := [[1, 0]],
    summary := none, summaryEmbedding := none, metadata := [] }

/-- Concrete file-backed store with `D = 3` holding `item1` and `item2`. -/
def store3 : JSONFileMemory :=
  { D := 3, items := [item1, item2], file := serializeItems [item1, item2] }

/-! ## Theorems about the backend selector -/

/-- Every branch of the `if`/`elif` chain either raises or assigns a
provider; the chain never leaves `memory = None`. -/
theorem resolveBackend_cases (b : String) :
    (∃ e, resolveBackend b = .error e) ∨ (∃ p, resolveBackend b = .ok (some p)) := by
  unfold resolveBackend
  repeat' split
  all_goals
    first
      | (left; exact ⟨_, rfl⟩)
      | (right; exact ⟨_, rfl⟩)

/-- C1: the active backend names construct the corresponding provider and
`get_memory` returns that instance: `"json_file"` and `"local"` yield the
file-backed provider, `"no_memory"` yields the null provider. -/
theorem get_memory_active_backends :
    get_memory "json_file" = (.ok Provider.jsonFile, [Provider.jsonFile]) ∧
    get_memory "local" = (.ok Provider.jsonFile, [Provider.jsonFile]) ∧
    get_memory "no_memory" = (.ok Provider.noMemory, [Provider.noMemory]) :=
  ⟨rfl, rfl, rfl⟩

/-- C2: every retired backend name (`"pinecone"`, `"redis"`,
`"weaviate"`) makes `get_memory` fail with a `BackendRetired` error
carrying a nonempty explanatory message; the construction log is empty,
so no provider instance is constructed and — since `JSONFileMemory`
construction is the only filesystem-touching step of the module — the
filesystem is never touched. -/
theorem get_memory_retired_backends (b : String)
    (h : b = "pinecone" ∨ b = "redis" ∨ b = "weaviate") :
    ∃ msg, get_memory b = (.error (.backendRetired msg), []) ∧ msg ≠ "" := by
  rcases h with h | h | h <;> subst h
  · exact ⟨pineconeRetiredMessage, rfl, by decide⟩
  · exact ⟨redisRetiredMessage, rfl, by decide⟩
  · exact ⟨weaviateRetiredMessage, rfl, by decide⟩

/-- Witness for C2 at the concrete retired name `"pinecone"`. -/
theorem get_memory_retired_backends_witness :
    ∃ msg, get_memory "pinecone" = (.error (.backendRetired msg), []) ∧ msg ≠ "" :=
  get_memory_retired_backends "pinecone" (Or.inl rfl)

/-- C3: a backend name that is neither active nor retired makes
`get_memory` fail with an `UnknownBackend` error whose message names the
offending value; the construction log is empty, so no provider is
constructed. -/
theorem get_memory_unknown_backend (b : String)
    (h1 : b ≠ "json_file") (h2 : b ≠ "local") (h3 : b ≠ "no_memory")
    (h4 : b ≠ "pinecone") (h5 : b ≠ "redis") (h6 : b ≠ "weaviate") :
    get_memory b =
      (.error (.unknownBackend
        ("Unknown memory backend \x27" ++ b ++ "\x27. Please check your config.")), []) := by
  simp [get_memory, resolveBackend, unknownBackendMessage, h1, h2, h3, h4, h5, h6]

/-- Witness for C3 at the concrete unknown name `"milvus"`. -/
theorem get_memory_unknown_backend_witness :
    get_memory "milvus" =
      (.error (.unknownBackend
        ("Unknown memory backend \x27milvus\x27. Please check your config.")), []) :=
  get_memory_unknown_backend "milvus" (by decide) (by decide) (by decide)
    (by decide) (by decide) (by decide)

/-- C4: the defensive `if memory is None` default constructs the
file-backed provider, and for every backend-name string that branch is
unreachable: the chain never yields `None`, so `get_memory` either raises
or returns the provider assigned by an explicit branch. -/
theorem get_memory_default_branch :
    defaultIfNone none = (.ok Provider.jsonFile, [Provider.jsonFile]) ∧
    (∀ b, (∃ e, resolveBackend b = .error e) ∨
      (∃ p, resolveBackend b = .ok (some p))) ∧
    (∀ b, (∃ e, get_memory b = (.error e, [])) ∨
      (∃ p, resolveBackend b = .ok (some p) ∧ get_memory b = (.ok p, [p]))) := by
  refine ⟨rfl, resolveBackend_cases, fun b => ?_⟩
  rcases resolveBackend_cases b with ⟨e, h⟩ | ⟨p, h⟩
  · exact Or.inl ⟨e, by simp [get_memory, h]⟩
  · exact Or.inr ⟨p, h, by simp [get_memory, h, defaultIfNone]⟩

/-- C5: `get_memory` returns a provider without raising exactly for the
names `"json_file"`, `"local"` and `"no_memory"`; every advertised
supported backend is accepted, and `"local"` is accepted although absent
from `get_supported_memory_backends()`, so the acceptance set strictly
contains the advertised enumeration. -/
theorem get_memory_acceptance_set :
    (∀ b, (∃ p, (get_memory b).1 = .ok p) ↔
      (b = "json_file" ∨ b = "local" ∨ b = "no_memory")) ∧
    (∀ b, b ∈ get_supported_memory_backends → ∃ p, (get_memory b).1 = .ok p) ∧
    (∃ p, (get_memory "local").1 = .ok p) ∧
    "local" ∉ get_supported_memory_backends := by
  refine ⟨fun b => ⟨fun hp => ?_, fun hb => ?_⟩, fun b hb => ?_,
    ⟨Provider.jsonFile, rfl⟩, by decide⟩
  · obtain ⟨p, hp⟩ := hp
    by_cases hb1 : b = "json_file"
    · exact Or.inl hb1
    by_cases hb2 : b = "local"
    · exact Or.inr (Or.inl hb2)
    by_cases hb3 : b = "no_memory"
    · exact Or.inr (Or.inr hb3)
    exfalso
    have herr : ∃ e, (get_memory b).1 = .error e := by
      by_cases hb4 : b = "pinecone"
      · subst hb4; exact ⟨_, rfl⟩
      by_cases hb5 : b = "redis"
      · subst hb5; exact ⟨_, rfl⟩
      by_cases hb6 : b = "weaviate"
      · subst hb6; exact ⟨_, rfl⟩
      exact ⟨.unknownBackend (unknownBackendMessage b), by
        simp [get_memory, resolveBackend, hb1, hb2, hb3, hb4, hb5, hb6]⟩
    obtain ⟨e, he⟩ := herr
    rw [he] at hp
    exact Except.noConfusion hp
  · rcases hb with rfl | rfl | rfl <;> exact ⟨_, rfl⟩
  · simp only [get_supported_memory_backends, supported_memory,
      List.mem_cons, List.mem_singleton, List.not_mem_nil, or_false] at hb
    rcases hb with rfl | rfl <;> exact ⟨_, rfl⟩

/-- Witness for C5: concrete instances of the supported-backend
implication at `"json_file"` and `"no_memory"`. -/
theorem get_memory_acceptance_set_witness :
    (∃ p, (get_memory "json_file").1 = .ok p) ∧
    (∃ p, (get_memory "no_memory").1 = .ok p) :=
  ⟨get_memory_acceptance_set.2.1 "json_file" (by decide),
   get_memory_acceptance_set.2.1 "no_memory" (by decide)⟩

/-- C10: the supported-backends enumeration is the constant list
`["json_file", "no_memory"]`; `get_supported_memory_backends()` returns
exactly it (in the embedding both are immutable constants — the module
contains no operation mutating the list, the appending import blocks
being commented out). -/
theorem supported_backends_static :
    get_supported_memory_backends = ["json_file", "no_memory"] ∧
    supported_memory = ["json_file", "no_memory"] :=
  ⟨rfl, rfl⟩

/-! ## Theorems about the null provider -/

/-- Every operation leaves the null provider's state unchanged. -/
theorem NoMemory.applyOp_eq (m : NoMemory) (op : MemOp) : m.applyOp op = m := by
  cases op with
  | addOp it =>
      show (m.add it).1 = m
      unfold NoMemory.add
      split <;> rfl
  | clearOp => rfl
  | getOp i => rfl
  | getRelevantOp q k => rfl

/-- Every sequence of operations leaves the null provider unchanged. -/
theorem NoMemory.run_eq (m : NoMemory) (ops : List MemOp) : m.run ops = m := by
  induction ops with
  | nil => rfl
  | cons op rest ih =>
      show (m.applyOp op).run rest = m
      rw [NoMemory.applyOp_eq]
      exact ih

/-- C6: selecting `"no_memory"` yields the null provider, for which `add`
followed by `count()` still reports 0, `getRelevant` returns an empty
sequence for every valid query, `get` always fails with `NotFound`,
`clear` is a no-op, and every sequence of operations leaves the state
unchanged with `count` still 0 (zero persistence side effects, zero
memory growth). -/
theorem no_memory_null_provider :
    (get_memory "no_memory").1 = .ok Provider.noMemory ∧
    (∀ (m : NoMemory) (it : MemoryItem), ((m.add it).1).count = 0) ∧
    (∀ (m : NoMemory) (q : List ℚ) (k : ℤ),
      q.length = m.D → m.getRelevant q k = .ok []) ∧
    (∀ (m : NoMemory) (i : ℕ), m.get i = .error .notFound) ∧
    (∀ (m : NoMemory), m.clear = m) ∧
    (∀ (m : NoMemory) (ops : List MemOp),
      m.run ops = m ∧ (m.run ops).count = 0) := by
  refine ⟨rfl, fun m it => rfl, fun m q k h => ?_, fun m i => rfl,
    fun m => rfl, fun m ops => ⟨NoMemory.run_eq m ops, rfl⟩⟩
  simp [NoMemory.getRelevant, h]

/-- Witness for C6 at a concrete null provider with `D = 3`. -/
theorem no_memory_null_provider_witness :
    NoMemory.getRelevant ⟨3⟩ [1, 0, 0] 5 = .ok [] ∧
    NoMemory.run ⟨3⟩ [.addOp item1, .clearOp] = ⟨3⟩ :=
  ⟨no_memory_null_provider.2.2.1 ⟨3⟩ [1, 0, 0] 5 (by decide),
   (no_memory_null_provider.2.2.2.2.2 ⟨3⟩ [.addOp item1, .clearOp]).1⟩

/-! ## Theorems about `add` dimension checking -/

/-- C8: adding an item containing an embedding whose length differs from
the provider's fixed `D` fails with `DimensionMismatch` and leaves the
store unchanged — `count()` afterwards equals `count()` before — on both
the file-backed and the null provider. -/
theorem add_dimension_mismatch (st : JSONFileMemory) (m : NoMemory)
    (it it2 : MemoryItem)
    (h : ¬ itemDimOk st.D it) (h2 : ¬ itemDimOk m.D it2) :
    st.add it = (st, .error .dimensionMismatch) ∧
    ((st.add it).1).count = st.count ∧
    m.add it2 = (m, .error .dimensionMismatch) ∧
    ((m.add it2).1).count = m.count := by
  have ha : st.add it = (st, .error .dimensionMismatch) := by
    simp [JSONFileMemory.add, h]
  have hb : m.add it2 = (m, .error .dimensionMismatch) := by
    simp [NoMemory.add, h2]
  exact ⟨ha, by rw [ha], hb, by rw [hb]⟩

/-- Witness for C8: `badItem` has an embedding of length 2, rejected by
stores with `D = 3`. -/
theorem add_dimension_mismatch_witness :
    JSONFileMemory.add store3 badItem = (store3, .error .dimensionMismatch) ∧
    ((JSONFileMemory.add store3 badItem).1).count = store3.count ∧
    NoMemory.add ⟨3⟩ badItem = (⟨3⟩, .error .dimensionMismatch) ∧
    ((NoMemory.add ⟨3⟩ badItem).1).count = NoMemory.count ⟨3⟩ :=
  add_dimension_mismatch store3 ⟨3⟩ badItem badItem (by decide) (by decide)

/-! ## Theorems about the ranking order and `getRelevant` -/

/-- The ranking order is total. -/
theorem rankLE_total (a b : ℕ × MemoryItemRelevance) :
    rankLE a b ∨ rankLE b a := by
  unfold rankLE
  rcases lt_trichotomy a.2.bestScore b.2.bestScore with h | h | h
  · right; left; exact h
  · rcases Nat.le_total a.1 b.1 with h2 | h2
    · left; right; exact ⟨h, h2⟩
    · right; right; exact ⟨h.symm, h2⟩
  · left; left; exact h

/-- The ranking order is transitive. -/
theorem rankLE_trans {a b c : ℕ × MemoryItemRelevance}
    (h1 : rankLE a b) (h2 : rankLE b c) : rankLE a c := by
  unfold rankLE at h1 h2 ⊢
  rcases h1 with h1 | ⟨h1e, h1i⟩
  · rcases h2 with h2 | ⟨h2e, h2i⟩
    · exact Or.inl (h2.trans h1)
    · left; rw [← h2e]; exact h1
  · rcases h2 with h2 | ⟨h2e, h2i⟩
    · left; rw [h1e]; exact h2
    · exact Or.inr ⟨h1e.trans h2e, h1i.trans h2i⟩

/-- `insertRanked` permutes to consing. -/
theorem insertRanked_perm (x : ℕ × MemoryItemRelevance) :
    ∀ l, List.Perm (insertRanked x l) (x :: l) := by
  intro l
  induction l with
  | nil => exact List.Perm.refl _
  | cons y ys ih =>
      unfold insertRanked
      split
      · exact List.Perm.refl _
      · exact (List.Perm.cons y ih).trans (List.Perm.swap x y ys)

/-- `insertRanked` preserves sortedness. -/
theorem insertRanked_pairwise (x : ℕ × MemoryItemRelevance) :
    ∀ {l}, l.Pairwise rankLE → (insertRanked x l).Pairwise rankLE := by
  intro l
  induction l with
  | nil => intro _; exact List.pairwise_singleton rankLE x
  | cons y ys ih =>
      intro hp
      rw [List.pairwise_cons] at hp
      obtain ⟨hy, hys⟩ := hp
      unfold insertRanked
      split
      · rename_i hxy
        refine List.pairwise_cons.mpr ⟨?_, List.pairwise_cons.mpr ⟨hy, hys⟩⟩
        intro z hz
        rcases List.mem_cons.mp hz with rfl | hz2
        · exact hxy
        · exact rankLE_trans hxy (hy z hz2)
      · rename_i hxy
        have hyx : rankLE y x := (rankLE_total x y).resolve_left hxy
        refine List.pairwise_cons.mpr ⟨?_, ih hys⟩
        intro z hz
        have hz3 : z = x ∨ z ∈ ys := by
          have := (insertRanked_perm x ys).mem_iff.mp hz
          simpa using this
        rcases hz3 with rfl | hz4
        · exact hyx
        · exact hy z hz4

/-- `rankSort` is a permutation of its input. -/
theorem rankSort_perm : ∀ l, List.Perm (rankSort l) l := by
  intro l
  induction l with
  | nil => exact List.Perm.refl _
  | cons x xs ih =>
      exact (insertRanked_perm x (rankSort xs)).trans (List.Perm.cons x ih)

/-- `rankSort` sorts by the ranking order. -/
theorem rankSort_pairwise : ∀ l, (rankSort l).Pairwise rankLE := by
  intro l
  induction l with
  | nil => exact List.Pairwise.nil
  | cons x xs ih => exact insertRanked_pairwise x ih

/-- C7: on the file-backed provider, `getRelevant` over any scorer, any
store, any valid query embedding and any integer `k` returns at most `k`
items, ranked by non-increasing `bestScore` with ties broken by insertion
order (smaller insertion index first), drawn from the scored stored
items; `k ≤ 0` yields the empty sequence rather than an error; a query
embedding whose length differs from `D` fails with `DimensionMismatch`.
The null provider satisfies the same contract (its result is always
empty). -/
theorem getRelevant_ranked (st : JSONFileMemory)
    (score : List ℚ → List ℚ → ℚ) (q : List ℚ) (k : ℤ)
    (m : NoMemory) (q2 : List ℚ) :
    (q.length = st.D →
      ∃ res, st.getRelevant score q k = .ok res ∧
        res.length ≤ k.toNat ∧
        (k ≤ 0 → res = []) ∧
        res.Pairwise rankLE ∧
        res.Pairwise (fun a b => b.2.bestScore ≤ a.2.bestScore) ∧
        (∀ x ∈ res, x ∈ (st.items.map (scoreMemoryItem score q)).enum)) ∧
    (q.length ≠ st.D →
      st.getRelevant score q k = .error .dimensionMismatch) ∧
    (q2.length = m.D → ∀ k2, m.getRelevant q2 k2 = .ok []) ∧
    (q2.length ≠ m.D → ∀ k2,
      m.getRelevant q2 k2 = .error .dimensionMismatch) := by
  refine ⟨fun h => ?_, fun h => ?_, fun h k2 => ?_, fun h k2 => ?_⟩
  · refine ⟨(rankSort ((st.items.map (scoreMemoryItem score q)).enum)).take k.toNat,
      ?_, ?_, ?_, ?_, ?_, ?_⟩
    · simp [JSONFileMemory.getRelevant, h]
    · exact List.length_take_le _ _
    · intro hk
      rw [Int.toNat_of_nonpos hk, List.take_zero]
    · exact List.Pairwise.sublist (List.take_sublist _ _) (rankSort_pairwise _)
    · refine List.Pairwise.imp ?_
        (List.Pairwise.sublist (List.take_sublist _ _) (rankSort_pairwise _))
      intro a b hab
      rcases hab with hlt | ⟨heq, _⟩
      · exact le_of_lt hlt
      · exact le_of_eq heq.symm
    · intro x hx
      exact (rankSort_perm _).mem_iff.mp
        ((List.take_sublist _ _).subset hx)
  · simp [JSONFileMemory.getRelevant, h]
  · simp [NoMemory.getRelevant, h]
  · simp [NoMemory.getRelevant, h]

/-- Witness for C7 at a concrete store (`D = 3`, two items), the dot
scorer, a valid query, a wrong-length query and `k = 1`. -/
theorem getRelevant_ranked_witness :
    (∃ res, JSONFileMemory.getRelevant store3 dotQ [1, 0, 0] 1 = .ok res ∧
      res.length ≤ (1 : ℤ).toNat ∧
      ((1 : ℤ) ≤ 0 → res = []) ∧
      res.Pairwise rankLE ∧
      res.Pairwise (fun a b => b.2.bestScore ≤ a.2.bestScore) ∧
      (∀ x ∈ res, x ∈ (store3.items.map (scoreMemoryItem dotQ [1, 0, 0])).enum)) ∧
    JSONFileMemory.getRelevant store3 dotQ [1, 0] 1 = .error .dimensionMismatch ∧
    NoMemory.getRelevant ⟨3⟩ [1, 0, 0] 2 = .ok [] :=
  ⟨(getRelevant_ranked store3 dotQ [1, 0, 0] 1 ⟨3⟩ [1, 0, 0]).1 (by decide),
   (getRelevant_ranked store3 dotQ [1, 0] 1 ⟨3⟩ [1, 0, 0]).2.1 (by decide),
   (getRelevant_ranked store3 dotQ [1, 0] 1 ⟨3⟩ [1, 0, 0]).2.2.1 (by decide) 2⟩

/-! ## Theorems about serialization and the file round trip -/

/-- Decoding inverts encoding on number lists. -/
theorem decNums_map (v : List ℚ) : decNums (v.map .num) = some v := by
  induction v with
  | nil => rfl
  | cons x xs ih => simp [decNums, ih]

/-- Decoding inverts encoding on string lists. -/
theorem decStrs_map (l : List String) : decStrs (l.map .str) = some l := by
  induction l with
  | nil => rfl
  | cons x xs ih => simp [decStrs, ih]

/-- Decoding inverts encoding on embedding vectors. -/
theorem decVec_encVec (v : List ℚ) : decVec (encVec v) = some v := by
  simp [decVec, encVec, decNums_map]

/-- Decoding inverts encoding on lists of embedding vectors. -/
theorem decVecs_map (es : List (List ℚ)) :
    decVecs (es.map encVec) = some es := by
  induction es with
  | nil => rfl
  | cons e es ih => simp [decVecs, decVec_encVec, ih]

/-- Decoding inverts encoding on optional strings. -/
theorem decOptStr_enc (s : Option String) :
    decOptStr (encOptStr s) = some s := by
  cases s <;> rfl

/-- Decoding inverts encoding on optional embedding vectors. -/
theorem decOptVec_enc (v : Option (List ℚ)) :
    decOptVec (encOptVec v) = some v := by
  cases v with
  | none => rfl
  | some v => simp [encOptVec, encVec, decOptVec, decNums_map]

/-- Decoding inverts encoding on metadata. -/
theorem decMeta_map (md : List (String × String)) :
    decMeta (md.map fun p => (p.1, .str p.2)) = some md := by
  induction md with
  | nil => rfl
  | cons p ps ih => simp [decMeta, ih]

/-- One record round-trips exactly. -/
theorem deserialize_serialize (it : MemoryItem) :
    deserializeMemoryItem (serializeMemoryItem it) = some it := by
  simp [serializeMemoryItem, deserializeMemoryItem, decStrs_map,
    decVecs_map, decOptStr_enc, decOptVec_enc, decMeta_map]

/-- A serialized item sequence decodes to itself. -/
theorem decItems_map (items : List MemoryItem) :
    decItems (items.map serializeMemoryItem) = some items := by
  induction items with
  | nil => rfl
  | cons it its ih => simp [decItems, deserialize_serialize, ih]

/-- `addAll` over valid items on a store whose file mirrors its items
appends the items and keeps the file in sync. -/
theorem addAll_sync (items : List MemoryItem) :
    ∀ st : JSONFileMemory, (∀ it ∈ items, itemDimOk st.D it) →
      st.file = serializeItems st.items →
      addAll st items =
        { D := st.D, items := st.items ++ items,
          file := serializeItems (st.items ++ items) } := by
  induction items with
  | nil =>
      intro st _ hf
      rcases st with ⟨D, its, f⟩
      simp only [addAll, List.append_nil]
      simp only at hf
      rw [hf]
  | cons it rest ih =>
      intro st hdim hf
      have hit : itemDimOk st.D it := hdim it (List.mem_cons_self it rest)
      show addAll (st.add it).1 rest = _
      have hadd : (st.add it).1 =
          { D := st.D, items := st.items ++ [it],
            file := serializeItems (st.items ++ [it]) } := by
        simp [JSONFileMemory.add, hit]
      rw [hadd]
      have hres := ih
        { D := st.D, items := st.items ++ [it],
          file := serializeItems (st.items ++ [it]) }
        (fun x hx => hdim x (List.mem_cons_of_mem it hx)) rfl
      rw [hres]
      simp

/-- Reopening a file holding a serialized valid item sequence succeeds
and reproduces exactly that sequence. -/
theorem openStore_roundtrip (D : ℕ) (items : List MemoryItem)
    (h : ∀ it ∈ items, itemDimOk D it) :
    openStore D (serializeItems items) =
      .ok { D := D, items := items, file := serializeItems items } := by
  unfold openStore
  have hd : deserializeItems (serializeItems items) = some items := by
    simp [deserializeItems, serializeItems, decItems_map]
  simp only [hd]
  rw [if_pos h]

/-- C9: every record round-trips exactly
(`deserialize(serialize(item)) = item`, embedding values being exact
rationals), and for every sequence of valid items added to a fresh
file-backed store, reopening the store from its backing file reproduces
the identical ordered sequence of items. -/
theorem file_roundtrip :
    (∀ it, deserializeMemoryItem (serializeMemoryItem it) = some it) ∧
    (∀ (D : ℕ) (items : List MemoryItem),
      (∀ it ∈ items, itemDimOk D it) →
      ∃ st, addAll (emptyStore D) items = st ∧
        openStore D st.file = .ok { D := D, items := items, file := st.file } ∧
        st.items = items) := by
  refine ⟨deserialize_serialize, fun D items h => ?_⟩
  have hsync : addAll (emptyStore D) items =
      { D := D, items := items, file := serializeItems items } := by
    have := addAll_sync items (emptyStore D) (by simpa [emptyStore] using h) rfl
    simpa [emptyStore] using this
  exact ⟨{ D := D, items := items, file := serializeItems items },
    hsync, openStore_roundtrip D items h, rfl⟩

/-- Witness for C9: two concrete items added to a fresh `D = 3` store
round-trip through the backing file. -/
theorem file_roundtrip_witness :
    deserializeMemoryItem (serializeMemoryItem item1) = some item1 ∧
    (∃ st, addAll (emptyStore 3) [item1, item2] = st ∧
      openStore 3 st.file =
        .ok { D := 3, items := [item1, item2], file := st.file } ∧
      st.items = [item1, item2]) :=
  ⟨file_roundtrip.1 item1, file_roundtrip.2 3 [item1, item2] (by decide)⟩

end AutoGPT
